import Mathlib

/-!
Verification development for the Antoine vapor-pressure script
(src/Antoine_script.py).

The numeric kernel of the script is two numpy-based functions:

* `calcular_presion_vapor(T, a, b, c, d, e, f)`
  computes `exp(a + b/(T+c) + d*log(T) + e*T**f)` (lines 18-20);
* `calcular_ebullicion(P_objetivo, a, b, c, d, e, f)`
  builds `np.linspace(200, 700, 1000)`, evaluates the same expression at
  every grid point, and returns the grid temperature at
  `np.abs(P_calc - P_objetivo).argmin()` (lines 22-27).

The embedding models numpy float64 values as extended reals with a NaN
element (`FP` below): exact real arithmetic is used for the finite values
(rounding, overflow and underflow are not modelled), while the IEEE-754
special values +inf, -inf and NaN and their propagation through the
operations actually used by the script (`+`, `*`, `/`, `np.log`, `np.exp`,
`**`, `np.abs`, subtraction, comparison) are modelled faithfully.
`np.argmin` is modelled by its scanning loop exactly as numpy implements
it for floats: the running minimum is replaced when `not (a[i] >= mp)`,
and the loop breaks at the first NaN, so an array containing a NaN yields
the index of its first NaN.

The dashboard callback's component-pair lookup (lines 97-102) is modelled
at the end of the definitions section: `df[df["Component"] == n].iloc[0]`
is a filter followed by positional indexing, and pandas `.iloc[0]` on an
empty selection raises `IndexError` (a subclass of `LookupError`).
-/

namespace Antoine

/-- Extended-real model of a numpy float64 value: a finite real, one of the
two infinities, or NaN.  Finite-value arithmetic is exact (no rounding or
overflow); the special values follow IEEE-754 semantics. -/
inductive FP where
  | fin : ℝ → FP
  | pinf : FP
  | ninf : FP
  | nan : FP

/-- True exactly on the NaN value. -/
def FP.isNan : FP → Bool
  | .nan => true
  | _ => false

/-- True exactly on finite values. -/
def FP.isFinite : FP → Bool
  | .fin _ => true
  | _ => false

/-- IEEE comparison `x <= y` as numpy evaluates it on float64: any
comparison with NaN is false. -/
noncomputable def FP.le : FP → FP → Bool
  | .nan, _ => false
  | _, .nan => false
  | .ninf, _ => true
  | .pinf, .pinf => true
  | .pinf, _ => false
  | .fin _, .pinf => true
  | .fin _, .ninf => false
  | .fin x, .fin y => decide (x ≤ y)

/-- IEEE addition of two float64 values (finite part exact). -/
noncomputable def FP.add : FP → FP → FP
  | .nan, _ => .nan
  | _, .nan => .nan
  | .fin x, .fin y => .fin (x + y)
  | .fin _, .pinf => .pinf
  | .fin _, .ninf => .ninf
  | .pinf, .fin _ => .pinf
  | .ninf, .fin _ => .ninf
  | .pinf, .pinf => .pinf
  | .ninf, .ninf => .ninf
  | .pinf, .ninf => .nan
  | .ninf, .pinf => .nan

/-- Addition of a finite scalar (a coefficient of the script) on the left. -/
noncomputable def FP.radd (x : ℝ) : FP → FP
  | .nan => .nan
  | .fin y => .fin (x + y)
  | .pinf => .pinf
  | .ninf => .ninf

/-- Multiplication by a finite scalar on the left; `0 * inf = NaN` as in
IEEE-754. -/
noncomputable def FP.rmul (x : ℝ) : FP → FP
  | .nan => .nan
  | .fin y => .fin (x * y)
  | .pinf => if x = 0 then .nan else if 0 < x then .pinf else .ninf
  | .ninf => if x = 0 then .nan else if 0 < x then .ninf else .pinf

/-- Subtraction of a finite scalar (the target pressure in line 26). -/
noncomputable def FP.subR : FP → ℝ → FP
  | .nan, _ => .nan
  | .fin x, y => .fin (x - y)
  | .pinf, _ => .pinf
  | .ninf, _ => .ninf

/-- Model of numpy `np.abs` on float64. -/
noncomputable def FP.abs : FP → FP
  | .nan => .nan
  | .fin x => .fin |x|
  | .pinf => .pinf
  | .ninf => .pinf

/-- Model of numpy `np.exp` on float64: `exp(-inf) = 0`, `exp(inf) = inf`,
`exp(NaN) = NaN`. -/
noncomputable def FP.exp : FP → FP
  | .nan => .nan
  | .fin x => .fin (Real.exp x)
  | .pinf => .pinf
  | .ninf => .fin 0

/-- Model of float64 division with a finite numerator and denominator:
division by zero yields a signed infinity (or NaN for `0/0`), matching
numpy's silent-warning semantics. -/
noncomputable def npDiv (x y : ℝ) : FP :=
  if y = 0 then (if x = 0 then .nan else if 0 < x then .pinf else .ninf)
  else .fin (x / y)

/-- Model of numpy `np.log` on a finite float64: `log` of a negative number
is NaN and `log 0 = -inf`. -/
noncomputable def npLog (x : ℝ) : FP :=
  if x < 0 then .nan else if x = 0 then .ninf else .fin (Real.log x)

/-- Model of numpy float64 `x ** y` for finite `x`, `y`: real `rpow` for a
positive base; numpy's conventions `0**0 = 1`, `0**y = 0` for `y > 0`,
`0**y = inf` for `y < 0`; a negative base gives NaN unless the exponent is
an integer. -/
noncomputable def npPow (x y : ℝ) : FP :=
  if 0 < x then .fin (x ^ y)
  else if x = 0 then (if y = 0 then .fin 1 else if 0 < y then .fin 0 else .pinf)
  else if Int.fract y = 0 then .fin (x ^ y) else .nan

/-- Line 19 of the script: the value of `a + b / (T + c) + d * np.log(T) +
e * T**f` on a float64 temperature `T` (left-associated, exactly as Python
evaluates it).  The coefficients, coming from the parameter table, are
finite reals. -/
noncomputable def lnP_fp (T a b c d e f : ℝ) : FP :=
  FP.add (FP.add (FP.radd a (npDiv b (T + c))) (FP.rmul d (npLog T)))
    (FP.rmul e (npPow T f))

/-- Lines 18-20 of the script: `calcular_presion_vapor` returns
`np.exp(lnP)`. -/
noncomputable def calcular_presion_vapor (T a b c d e f : ℝ) : FP :=
  FP.exp (lnP_fp T a b c d e f)

/-- The real number computed by lines 19-20 in the all-finite case;
`calcular_presion_vapor` returns `FP.fin` of this value whenever `T > 0`
and `T + c ≠ 0` (the lemma `calcular_presion_vapor_fin` below). -/
noncomputable def presion (T a b c d e f : ℝ) : ℝ :=
  Real.exp (a + b / (T + c) + d * Real.log T + e * T ^ f)

/-- Line 23: `np.linspace(200, 700, 1000)` produces the 1000 evenly spaced
temperatures `200 + 500*i/999` for `i = 0, ..., 999`. -/
noncomputable def T_range (i : ℕ) : ℝ :=
  200 + 500 * i / 999

/-- Lines 24-25 of `calcular_ebullicion`: the pressure computed at grid
point `i` (the same expression as `calcular_presion_vapor`, re-evaluated
inline by the source). -/
noncomputable def P_calc (a b c d e f : ℝ) (i : ℕ) : FP :=
  calcular_presion_vapor (T_range i) a b c d e f

/-- Line 26: the elementwise value `np.abs(P_calc - P_objetivo)` at grid
point `i`. -/
noncomputable def diffs (Pobj a b c d e f : ℝ) (i : ℕ) : FP :=
  FP.abs (FP.subR (P_calc a b c d e f i) Pobj)

/-- The scanning loop of numpy's float `argmin`, processing `k` further
indices starting at `i`, with `j` the index of the running minimum:
the running minimum `mp = g j` is replaced when `not (g i >= mp)`, and the
loop breaks as soon as the new minimum is NaN. -/
noncomputable def npArgminGo (g : ℕ → FP) : ℕ → ℕ → ℕ → ℕ
  | 0, _, j => j
  | Nat.succ k, i, j =>
      if FP.le (g j) (g i) then npArgminGo g k (i + 1) j
      else if (g i).isNan then i
      else npArgminGo g k (i + 1) i

/-- Numpy `argmin` over the values `g 0, ..., g N`: if the first value is
NaN its index is returned at once, otherwise the scanning loop runs over
the remaining indices. -/
noncomputable def npArgmin (g : ℕ → FP) (N : ℕ) : ℕ :=
  if (g 0).isNan then 0 else npArgminGo g N 1 0

/-- Lines 22-27 of the script: `calcular_ebullicion` returns
`T_range[np.abs(P_calc - P_objetivo).argmin()]`. -/
noncomputable def calcular_ebullicion (Pobj a b c d e f : ℝ) : ℝ :=
  T_range (npArgmin (diffs Pobj a b c d e f) 999)

/-- One row of the coefficient table `df` built by
`cargar_parametros_desde_tabla`: a component name and its six Antoine
coefficients. -/
structure Fila where
  component : String
  a : ℝ
  b : ℝ
  c : ℝ
  d : ℝ
  e : ℝ
  f : ℝ

/-- The pandas selection `df[df["Component"] == nombre]` of lines 98-99:
the rows whose component name equals the requested one. -/
def filtrar_componente (df : List Fila) (nombre : String) : List Fila :=
  df.filter (fun r => decide (r.component = nombre))

/-- Pandas `.iloc[0]`: the first row of a selection, or an `IndexError`
(a subclass of Python's `LookupError`) when the selection is empty. -/
def iloc0 : List Fila → Except String Fila
  | [] => Except.error "IndexError"
  | r :: _ => Except.ok r

/-- Line 98 (and 99): `df[df["Component"] == nombre].iloc[0]`. -/
def seleccionar_fila (df : List Fila) (nombre : String) : Except String Fila :=
  iloc0 (filtrar_componente df nombre)

/-- Lines 97-99 of `actualizar_graficos`: after the pair string is split
into the two component names, both rows are fetched with `.iloc[0]`; the
first raised `IndexError` aborts the computation. -/
def obtener_par (df : List Fila) (n1 n2 : String) : Except String (Fila × Fila) :=
  match seleccionar_fila df n1 with
  | Except.error msg => Except.error msg
  | Except.ok fila1 =>
      match seleccionar_fila df n2 with
      | Except.error msg => Except.error msg
      | Except.ok fila2 => Except.ok (fila1, fila2)

/-- A one-row concrete coefficient table used to exercise the lookup path
(the shape of the rows `cargar_parametros_desde_tabla` produces). -/
noncomputable def tabla_ejemplo : List Fila :=
  [⟨"Agua", 16.3872, -3885.70, 230.170, 0, 0, 0⟩]

/-! Basic facts about the IEEE comparison `FP.le`. -/

theorem FP.le_nan_right (x : FP) : FP.le x FP.nan = false := by
  cases x <;> rfl

theorem FP.le_nan_left (x : FP) : FP.le FP.nan x = false := by
  cases x <;> rfl

theorem FP.le_fin_fin (x y : ℝ) : FP.le (FP.fin x) (FP.fin y) = decide (x ≤ y) := rfl

theorem FP.not_nan_of_le {x y : FP} (h : FP.le x y = true) :
    x.isNan = false ∧ y.isNan = false := by
  cases x <;> cases y <;> simp_all [FP.le, FP.isNan]

theorem FP.le_refl {x : FP} (h : x.isNan = false) : FP.le x x = true := by
  cases x <;> simp_all [FP.le, FP.isNan]

theorem FP.le_total_of_not_le {x y : FP} (hx : x.isNan = false)
    (hy : y.isNan = false) (h : FP.le x y = false) : FP.le y x = true := by
  cases x <;> cases y <;> simp_all [FP.le, FP.isNan] <;> linarith

theorem FP.le_trans {x y z : FP} (hxy : FP.le x y = true)
    (hyz : FP.le y z = true) : FP.le x z = true := by
  cases x <;> cases y <;> cases z <;> simp_all [FP.le] <;> linarith

/-! Specification of the modelled numpy `argmin` loop. -/

theorem npArgminGo_le (g : ℕ → FP) :
    ∀ (k i j N : ℕ), j ≤ N → i + k ≤ N + 1 → npArgminGo g k i j ≤ N := by
  intro k
  induction k with
  | zero => intro i j N hj _; simpa [npArgminGo] using hj
  | succ k ih =>
      intro i j N hj hik
      rw [npArgminGo]
      cases hb : FP.le (g j) (g i) with
      | true => simp only [hb, if_true]; exact ih (i + 1) j N hj (by omega)
      | false =>
          simp only [hb, Bool.false_eq_true, if_false]
          cases hn : (g i).isNan with
          | true => simp only [hn, if_true]; omega
          | false =>
              simp only [hn, Bool.false_eq_true, if_false]
              exact ih (i + 1) i N (by omega) (by omega)

theorem npArgmin_le (g : ℕ → FP) (N : ℕ) : npArgmin g N ≤ N := by
  rw [npArgmin]
  cases hn : (g 0).isNan with
  | true => simp
  | false =>
      simp only [hn, Bool.false_eq_true, if_false]
      exact npArgminGo_le g N 1 0 N (Nat.zero_le N) (by omega)

theorem npArgminGo_first_nan (g : ℕ → FP) :
    ∀ (k i j n0 : ℕ), (g j).isNan = false → i ≤ n0 → n0 < i + k →
      (g n0).isNan = true → (∀ m, i ≤ m → m < n0 → (g m).isNan = false) →
      npArgminGo g k i j = n0 := by
  intro k
  induction k with
  | zero => intro i j n0 _ h1 h2 _ _; omega
  | succ k ih =>
      intro i j n0 hj h1 h2 hnan hpre
      rw [npArgminGo]
      rcases eq_or_lt_of_le h1 with heq | hlt
      · subst heq
        have hle : FP.le (g j) (g i) = false := by
          cases hgi : g i with
          | nan => exact FP.le_nan_right (g j)
          | fin x => rw [hgi] at hnan; simp [FP.isNan] at hnan
          | pinf => rw [hgi] at hnan; simp [FP.isNan] at hnan
          | ninf => rw [hgi] at hnan; simp [FP.isNan] at hnan
        simp only [hle, Bool.false_eq_true, if_false, hnan, if_true]
      · have hgi : (g i).isNan = false := hpre i le_rfl hlt
        cases hb : FP.le (g j) (g i) with
        | true =>
            simp only [hb, if_true]
            exact ih (i + 1) j n0 hj hlt (by omega) hnan
              (fun m hm1 hm2 => hpre m (by omega) hm2)
        | false =>
            simp only [hb, Bool.false_eq_true, if_false, hgi, if_false]
            exact ih (i + 1) i n0 hgi hlt (by omega) hnan
              (fun m hm1 hm2 => hpre m (by omega) hm2)

theorem npArgmin_first_nan (g : ℕ → FP) (N n0 : ℕ) (h0 : n0 ≤ N)
    (hnan : (g n0).isNan = true) (hpre : ∀ m, m < n0 → (g m).isNan = false) :
    npArgmin g N = n0 := by
  rw [npArgmin]
  rcases Nat.eq_zero_or_pos n0 with hz | hp
  · subst hz; simp [hnan]
  · have hg0 : (g 0).isNan = false := hpre 0 hp
    simp only [hg0, Bool.false_eq_true, if_false]
    exact npArgminGo_first_nan g N 1 0 n0 hg0 hp (by omega) hnan
      (fun m hm1 hm2 => hpre m hm2)

theorem npArgminGo_min (g : ℕ → FP) (N : ℕ)
    (hnn : ∀ m, m ≤ N → (g m).isNan = false) :
    ∀ (k i j : ℕ), i + k = N + 1 → 0 < i → j < i →
      (∀ m, m < i → FP.le (g j) (g m) = true) →
      (∀ m, m < j → FP.le (g m) (g j) = false) →
      npArgminGo g k i j ≤ N
        ∧ (∀ m, m ≤ N → FP.le (g (npArgminGo g k i j)) (g m) = true)
        ∧ (∀ m, m < npArgminGo g k i j →
            FP.le (g m) (g (npArgminGo g k i j)) = false) := by
  intro k
  induction k with
  | zero =>
      intro i j hik hi hj hmin hfirst
      rw [npArgminGo]
      exact ⟨by omega, fun m hm => hmin m (by omega), hfirst⟩
  | succ k ih =>
      intro i j hik hi hj hmin hfirst
      have hiN : i ≤ N := by omega
      have hgi : (g i).isNan = false := hnn i hiN
      have hgj : (g j).isNan = false := (FP.not_nan_of_le (hmin j hj)).1
      rw [npArgminGo]
      cases hb : FP.le (g j) (g i) with
      | true =>
          simp only [hb, if_true]
          refine ih (i + 1) j (by omega) (by omega) (by omega) ?_ hfirst
          intro m hm
          rcases Nat.lt_succ_iff_lt_or_eq.mp hm with hm' | hm'
          · exact hmin m hm'
          · subst hm'; exact hb
      | false =>
          simp only [hb, Bool.false_eq_true, if_false, hgi, if_false]
          have hij : FP.le (g i) (g j) = true := FP.le_total_of_not_le hgj hgi hb
          refine ih (i + 1) i (by omega) (by omega) (by omega) ?_ ?_
          · intro m hm
            rcases Nat.lt_succ_iff_lt_or_eq.mp hm with hm' | hm'
            · exact FP.le_trans hij (hmin m hm')
            · subst hm'; exact FP.le_refl hgi
          · intro m hm
            cases hmi : FP.le (g m) (g i) with
            | false => rfl
            | true =>
                exfalso
                have : FP.le (g j) (g i) = true :=
                  FP.le_trans (hmin m hm) hmi
                rw [hb] at this
                exact Bool.false_ne_true this

theorem npArgmin_min (g : ℕ → FP) (N : ℕ)
    (hnn : ∀ m, m ≤ N → (g m).isNan = false) :
    npArgmin g N ≤ N
      ∧ (∀ m, m ≤ N → FP.le (g (npArgmin g N)) (g m) = true)
      ∧ (∀ m, m < npArgmin g N → FP.le (g m) (g (npArgmin g N)) = false) := by
  have hg0 : (g 0).isNan = false := hnn 0 (Nat.zero_le N)
  rw [npArgmin]
  simp only [hg0, Bool.false_eq_true, if_false]
  refine npArgminGo_min g N hnn N 1 0 (by omega) (by omega) (by omega) ?_ ?_
  · intro m hm
    have : m = 0 := by omega
    subst this
    exact FP.le_refl hg0
  · intro m hm; omega

/-! Arithmetic facts about the temperature grid `np.linspace(200, 700, 1000)`. -/

theorem T_range_zero : T_range 0 = 200 := by
  simp [T_range]

theorem T_range_last : T_range 999 = 700 := by
  norm_num [T_range]

theorem T_range_lower (i : ℕ) : 200 ≤ T_range i := by
  have : (0:ℝ) ≤ 500 * i / 999 := by positivity
  simp only [T_range]; linarith

theorem T_range_pos (i : ℕ) : 0 < T_range i := by
  have := T_range_lower i; linarith

theorem T_range_upper {i : ℕ} (hi : i ≤ 999) : T_range i ≤ 700 := by
  have hc : (i:ℝ) ≤ 999 := by exact_mod_cast hi
  have : 500 * (i:ℝ) / 999 ≤ 500 := by
    rw [div_le_iff (by norm_num)]
    nlinarith
  simp only [T_range]; linarith

theorem T_range_mem_Icc {i : ℕ} (hi : i ≤ 999) :
    T_range i ∈ Set.Icc (200:ℝ) 700 :=
  ⟨T_range_lower i, T_range_upper hi⟩

theorem T_range_strictMono {i j : ℕ} (hij : i < j) : T_range i < T_range j := by
  have hc : (i:ℝ) < j := by exact_mod_cast hij
  have : 500 * (i:ℝ) / 999 < 500 * (j:ℝ) / 999 := by
    apply (div_lt_div_right (by norm_num : (0:ℝ) < 999)).mpr
    nlinarith
  simp only [T_range]; linarith

theorem T_range_mono {i j : ℕ} (hij : i ≤ j) : T_range i ≤ T_range j := by
  rcases eq_or_lt_of_le hij with h | h
  · subst h; exact le_rfl
  · exact le_of_lt (T_range_strictMono h)

theorem T_range_step (i : ℕ) : T_range (i + 1) - T_range i = 500 / 999 := by
  simp only [T_range]
  push_cast
  ring

theorem T_range_inj {i j : ℕ} (h : T_range i = T_range j) : i = j := by
  rcases Nat.lt_trichotomy i j with hlt | heq | hgt
  · exact absurd h (ne_of_lt (T_range_strictMono hlt))
  · exact heq
  · exact absurd h.symm (ne_of_lt (T_range_strictMono hgt))

/-! Finite evaluation: whenever `T > 0` and `T + c ≠ 0`, every intermediate
float64 value of line 19 is finite and `calcular_presion_vapor` returns the
exact real value `presion`. -/

theorem calcular_presion_vapor_fin {T c : ℝ} (a b d e f : ℝ)
    (hT : 0 < T) (hc : T + c ≠ 0) :
    calcular_presion_vapor T a b c d e f = FP.fin (presion T a b c d e f) := by
  have h1 : npDiv b (T + c) = FP.fin (b / (T + c)) := by
    simp [npDiv, hc]
  have h2 : npLog T = FP.fin (Real.log T) := by
    simp [npLog, not_lt.mpr hT.le, hT.ne']
  have h3 : npPow T f = FP.fin (T ^ f) := by
    simp [npPow, hT]
  rw [calcular_presion_vapor, lnP_fp, h1, h2, h3]
  rfl

theorem P_calc_fin {c : ℝ} (a b d e f : ℝ) (i : ℕ)
    (hc : T_range i + c ≠ 0) :
    P_calc a b c d e f i = FP.fin (presion (T_range i) a b c d e f) := by
  rw [P_calc, calcular_presion_vapor_fin a b d e f (T_range_pos i) hc]

theorem diffs_fin {c : ℝ} (Pobj a b d e f : ℝ) (i : ℕ)
    (hc : T_range i + c ≠ 0) :
    diffs Pobj a b c d e f i
      = FP.fin |presion (T_range i) a b c d e f - Pobj| := by
  rw [diffs, P_calc_fin a b d e f i hc]
  rfl

theorem diffs_isNan (Pobj a b c d e f : ℝ) (i : ℕ) :
    (diffs Pobj a b c d e f i).isNan = (P_calc a b c d e f i).isNan := by
  rw [diffs]
  cases P_calc a b c d e f i <;> rfl

/-- Every temperature in `[200, 700]` is bracketed by two consecutive grid
points. -/
theorem exists_bracket {T0 : ℝ} (h1 : 200 ≤ T0) (h2 : T0 ≤ 700) :
    ∃ k, k ≤ 998 ∧ T_range k ≤ T0 ∧ T0 ≤ T_range (k + 1) := by
  have hx0 : (0:ℝ) ≤ (T0 - 200) * 999 / 500 :=
    div_nonneg (by nlinarith) (by norm_num)
  obtain ⟨n, hn⟩ : ∃ n : ℕ, (n : ℤ) = ⌊(T0 - 200) * 999 / 500⌋ :=
    ⟨(⌊(T0 - 200) * 999 / 500⌋).toNat, Int.toNat_of_nonneg (Int.floor_nonneg.mpr hx0)⟩
  have hfl : ((n:ℕ):ℝ) ≤ (T0 - 200) * 999 / 500 := by
    have h := Int.floor_le ((T0 - 200) * 999 / 500)
    rw [← hn] at h
    exact_mod_cast h
  have hfl2 : (T0 - 200) * 999 / 500 < ((n:ℕ):ℝ) + 1 := by
    have h := Int.lt_floor_add_one ((T0 - 200) * 999 / 500)
    rw [← hn] at h
    exact_mod_cast h
  rw [le_div_iff (by norm_num : (0:ℝ) < 500)] at hfl
  rw [div_lt_iff (by norm_num : (0:ℝ) < 500)] at hfl2
  by_cases hcase : n ≤ 998
  · refine ⟨n, hcase, ?_, ?_⟩
    · simp only [T_range]
      have h : 500 * ((n:ℕ):ℝ) / 999 ≤ T0 - 200 := by
        rw [div_le_iff (by norm_num : (0:ℝ) < 999)]
        nlinarith
      linarith
    · simp only [T_range]
      have h : T0 - 200 ≤ 500 * (((n + 1 : ℕ)):ℝ) / 999 := by
        rw [le_div_iff (by norm_num : (0:ℝ) < 999)]
        push_cast
        nlinarith
      linarith
  · have h999 : (999:ℝ) ≤ (n:ℝ) := by
      have h : 999 ≤ n := by omega
      exact_mod_cast h
    have hT700 : 700 ≤ T0 := by nlinarith
    refine ⟨998, le_rfl, ?_, ?_⟩
    · have := T_range_upper (i := 998) (by omega)
      linarith
    · rw [(by norm_num : 998 + 1 = 999), T_range_last]
      linarith

/-! Finiteness bookkeeping for the claim about undefined inputs. -/

theorem FP.add_isFinite (x y : FP) :
    (FP.add x y).isFinite = (x.isFinite && y.isFinite) := by
  cases x <;> cases y <;> rfl

theorem FP.radd_isFinite (x : ℝ) (y : FP) :
    (FP.radd x y).isFinite = y.isFinite := by
  cases y <;> rfl

theorem FP.rmul_not_finite (x : ℝ) {y : FP} (h : y.isFinite = false) :
    (FP.rmul x y).isFinite = false := by
  cases y with
  | fin v => simp [FP.isFinite] at h
  | nan => rfl
  | pinf => simp only [FP.rmul]; split_ifs <;> rfl
  | ninf => simp only [FP.rmul]; split_ifs <;> rfl

theorem npDiv_zero_not_finite (b : ℝ) : (npDiv b 0).isFinite = false := by
  simp only [npDiv, if_pos rfl]
  split_ifs <;> rfl

theorem npLog_nonpos_not_finite {T : ℝ} (h : T ≤ 0) :
    (npLog T).isFinite = false := by
  rcases lt_or_eq_of_le h with h | h
  · simp [npLog, h, FP.isFinite]
  · simp [npLog, ← h, FP.isFinite]

theorem FP.exp_not_finite_cases {x : FP} (h : x.isFinite = false) :
    FP.exp x = FP.nan ∨ FP.exp x = FP.pinf ∨ FP.exp x = FP.fin 0 := by
  cases x with
  | fin v => simp [FP.isFinite] at h
  | nan => exact Or.inl rfl
  | pinf => exact Or.inr (Or.inl rfl)
  | ninf => exact Or.inr (Or.inr rfl)

/-! Lemmas about the pandas lookup of lines 97-99. -/

theorem seleccionar_fila_not_found {df : List Fila} {n : String}
    (h : ∀ r ∈ df, r.component ≠ n) :
    seleccionar_fila df n = Except.error "IndexError" := by
  have hnil : filtrar_componente df n = [] := by
    rw [filtrar_componente, List.filter_eq_nil]
    intro r hr
    simp [h r hr]
  rw [seleccionar_fila, hnil]
  rfl

theorem seleccionar_fila_error_msg {df : List Fila} {n s : String}
    (h : seleccionar_fila df n = Except.error s) : s = "IndexError" := by
  cases hf : filtrar_componente df n with
  | nil => rw [seleccionar_fila, hf] at h; simp [iloc0] at h; exact h.symm
  | cons r t => rw [seleccionar_fila, hf] at h; simp [iloc0] at h

/-- C1: for every temperature `T > 0` with `T + c ≠ 0` and coefficients
`a, b, c, d, e, f`, `vaporPressure(T, a, b, c, d, e, f)` is the finite value
`exp(a + b/(T+c) + d*ln(T) + e*T^f)`, and the natural logarithm of the
returned pressure equals `a + b/(T+c) + d*ln(T) + e*T^f` (exactly, in this
real-valued model of float64, hence within any relative tolerance). -/
theorem C1_vapor_pressure_formula (T a b c d e f : ℝ)
    (hT : 0 < T) (hc : T + c ≠ 0) :
    ∃ P : ℝ, calcular_presion_vapor T a b c d e f = FP.fin P ∧ 0 < P ∧
      Real.log P = a + b / (T + c) + d * Real.log T + e * T ^ f :=
  ⟨presion T a b c d e f, calcular_presion_vapor_fin a b d e f hT hc,
    Real.exp_pos _, by rw [presion, Real.log_exp]⟩

/-- Witness for C1 at the concrete input `T = 1`, all coefficients `0`. -/
theorem C1_witness :
    (0:ℝ) < 1 ∧ (1:ℝ) + 0 ≠ 0 ∧
    ∃ P : ℝ, calcular_presion_vapor 1 0 0 0 0 0 0 = FP.fin P ∧ 0 < P ∧
      Real.log P = 0 + 0 / (1 + 0) + 0 * Real.log 1 + 0 * (1:ℝ) ^ (0:ℝ) :=
  ⟨by norm_num, by norm_num,
    C1_vapor_pressure_formula 1 0 0 0 0 0 0 (by norm_num) (by norm_num)⟩

/-- C5: for every target pressure and coefficients, the temperature
returned by `calcular_ebullicion` is one of the 1000 evenly spaced grid
values `200 + 500*i/999` in `[200, 700]`; it is never an interpolated
value. -/
theorem C5_result_on_grid (Pobj a b c d e f : ℝ) :
    ∃ i, i ≤ 999 ∧ calcular_ebullicion Pobj a b c d e f = T_range i
      ∧ 200 ≤ T_range i ∧ T_range i ≤ 700
      ∧ T_range i = 200 + 500 * i / 999 :=
  ⟨npArgmin (diffs Pobj a b c d e f) 999, npArgmin_le _ _, rfl,
    T_range_lower _, T_range_upper (npArgmin_le _ _), rfl⟩

/-- C7 (amended): for `T + c = 0` or `T ≤ 0`, `calcular_presion_vapor`
does not raise (it is a total function in this model) and its result is
NaN, `+inf`, or exactly `0` — the value `0` arises when the log-pressure
evaluates to `-inf` (for instance `T + c = 0` with `b < 0`), since
`exp(-inf) = 0`.  The original claim, that the result is always
non-finite, fails (see the counterexample). -/
theorem C7_amended_nonfinite_or_zero (T a b c d e f : ℝ)
    (h : T + c = 0 ∨ T ≤ 0) :
    calcular_presion_vapor T a b c d e f = FP.nan
    ∨ calcular_presion_vapor T a b c d e f = FP.pinf
    ∨ calcular_presion_vapor T a b c d e f = FP.fin 0 := by
  have hnf : (lnP_fp T a b c d e f).isFinite = false := by
    rcases h with h | h
    · have hd : (npDiv b (T + c)).isFinite = false := by
        rw [h]; exact npDiv_zero_not_finite b
      simp [lnP_fp, FP.add_isFinite, FP.radd_isFinite, hd]
    · have hl : (FP.rmul d (npLog T)).isFinite = false :=
        FP.rmul_not_finite d (npLog_nonpos_not_finite h)
      simp [lnP_fp, FP.add_isFinite, hl]
  exact FP.exp_not_finite_cases hnf

/-- Witness for the amended C7 at `T = 1`, `c = -1`, `b = 1`: the trigger
`T + c = 0` holds and the conclusion follows from the theorem. -/
theorem C7_witness :
    ((1:ℝ) + (-1) = 0 ∨ (1:ℝ) ≤ 0)
    ∧ (calcular_presion_vapor 1 0 1 (-1) 0 0 0 = FP.nan
       ∨ calcular_presion_vapor 1 0 1 (-1) 0 0 0 = FP.pinf
       ∨ calcular_presion_vapor 1 0 1 (-1) 0 0 0 = FP.fin 0) :=
  ⟨Or.inl (by norm_num),
    C7_amended_nonfinite_or_zero 1 0 1 (-1) 0 0 0 (Or.inl (by norm_num))⟩

/-- Counterexample to C7 as stated: at `T = 1`, `a = 0`, `b = -1`,
`c = -1`, `d = e = f = 0` the trigger `T + c = 0` holds, but the result is
the finite value `0` (the log-pressure is `-inf` and `exp(-inf) = 0`),
not a NaN or an infinity. -/
theorem C7_counterexample :
    (1:ℝ) + (-1) = 0
    ∧ calcular_presion_vapor 1 0 (-1) (-1) 0 0 0 = FP.fin 0
    ∧ (calcular_presion_vapor 1 0 (-1) (-1) 0 0 0).isFinite = true := by
  have h1 : npDiv (-1) ((1:ℝ) + -1) = FP.ninf := by
    norm_num [npDiv]
  have heq : calcular_presion_vapor 1 0 (-1) (-1) 0 0 0 = FP.fin 0 := by
    rw [calcular_presion_vapor, lnP_fp, h1]
    have h2 : npLog (1:ℝ) = FP.fin (Real.log 1) := by norm_num [npLog]
    have h3 : npPow (1:ℝ) 0 = FP.fin ((1:ℝ) ^ (0:ℝ)) := by norm_num [npPow]
    rw [h2, h3]
    rfl
  exact ⟨by norm_num, heq, by rw [heq]; rfl⟩

/-- C8: looking up a component pair with a name missing from the loaded
table fails with the Python `IndexError` raised by pandas `.iloc[0]` on an
empty selection (`IndexError` is a subclass of `LookupError`); it never
returns a pair of rows. -/
theorem C8_missing_pair_lookup_error (df : List Fila) (n1 n2 : String)
    (h : (∀ r ∈ df, r.component ≠ n1) ∨ (∀ r ∈ df, r.component ≠ n2)) :
    obtener_par df n1 n2 = Except.error "IndexError"
    ∧ ∀ filas : Fila × Fila, obtener_par df n1 n2 ≠ Except.ok filas := by
  have herr : obtener_par df n1 n2 = Except.error "IndexError" := by
    rcases h with h | h
    · simp [obtener_par, seleccionar_fila_not_found h]
    · cases hs : seleccionar_fila df n1 with
      | error msg =>
          simp [obtener_par, hs, seleccionar_fila_error_msg hs]
      | ok fila1 =>
          simp [obtener_par, hs, seleccionar_fila_not_found h]
  refine ⟨herr, ?_⟩
  intro filas hcontra
  rw [herr] at hcontra
  exact Except.noConfusion hcontra

/-- Witness for C8: the one-row table holds only "Agua", so requesting the
pair ("Etanol", "Agua") fails with the IndexError. -/
theorem C8_witness :
    (∀ r ∈ tabla_ejemplo, r.component ≠ "Etanol")
    ∧ obtener_par tabla_ejemplo "Etanol" "Agua" = Except.error "IndexError"
    ∧ ∀ filas : Fila × Fila,
        obtener_par tabla_ejemplo "Etanol" "Agua" ≠ Except.ok filas := by
  have h : ∀ r ∈ tabla_ejemplo, r.component ≠ "Etanol" := by
    intro r hr
    simp only [tabla_ejemplo, List.mem_singleton] at hr
    rw [hr]
    decide
  obtain ⟨h1, h2⟩ :=
    C8_missing_pair_lookup_error tabla_ejemplo "Etanol" "Agua" (Or.inl h)
  exact ⟨h, h1, h2⟩

/-- C9: `calcular_presion_vapor` and `calcular_ebullicion` are modelled as
functions of their arguments alone — the source functions read no mutable
or global state — so two calls with identical arguments give identical
results. -/
theorem C9_pure_deterministic (T Pobj a b c d e f : ℝ) :
    calcular_presion_vapor T a b c d e f = calcular_presion_vapor T a b c d e f
    ∧ calcular_ebullicion Pobj a b c d e f = calcular_ebullicion Pobj a b c d e f :=
  ⟨rfl, rfl⟩

theorem FP.add_nan_left (y : FP) : FP.add FP.nan y = FP.nan := by
  cases y <;> rfl

theorem FP.radd_nan (x : ℝ) : FP.radd x FP.nan = FP.nan := rfl

theorem FP.exp_nan : FP.exp FP.nan = FP.nan := rfl

/-- With `b = 0` and `c = -200` the first grid point `T = 200` makes
`b / (T + c) = 0/0 = NaN`, so the whole first pressure is NaN. -/
theorem nan_grid_example : (P_calc 0 0 (-200) 0 0 0 0).isNan = true := by
  have hT : T_range 0 + (-200:ℝ) = 0 := by rw [T_range_zero]; norm_num
  rw [P_calc, calcular_presion_vapor, lnP_fp, hT]
  norm_num [npDiv]
  rw [FP.radd_nan, FP.add_nan_left, FP.add_nan_left, FP.exp_nan]
  rfl

/-- C10: if the vapor-pressure evaluation yields NaN at grid point `n0` and
at no earlier grid point, `calcular_ebullicion` returns the temperature of
grid point `n0`, regardless of the target pressure and of the pressures at
the other grid points: numpy's `argmin` loop replaces the running minimum
whenever `not (a[i] >= mp)` and breaks at the first NaN. -/
theorem C10_first_nan_returned (Pobj a b c d e f : ℝ) (n0 : ℕ)
    (h0 : n0 ≤ 999) (hnan : (P_calc a b c d e f n0).isNan = true)
    (hpre : ∀ m, m < n0 → (P_calc a b c d e f m).isNan = false) :
    calcular_ebullicion Pobj a b c d e f = T_range n0 := by
  show T_range (npArgmin (diffs Pobj a b c d e f) 999) = T_range n0
  congr 1
  refine npArgmin_first_nan _ 999 n0 h0 ?_ ?_
  · rw [diffs_isNan]; exact hnan
  · intro m hm; rw [diffs_isNan]; exact hpre m hm

/-- Witness for C10 at the concrete input `a = 0`, `b = 0`, `c = -200`
(NaN exactly at the first grid point), target pressure `1`. -/
theorem C10_witness :
    (0:ℕ) ≤ 999 ∧ (P_calc 0 0 (-200) 0 0 0 0).isNan = true
    ∧ calcular_ebullicion 1 0 0 (-200) 0 0 0 = T_range 0 :=
  ⟨by omega, nan_grid_example,
    C10_first_nan_returned 1 0 0 (-200) 0 0 0 0 (by omega) nan_grid_example
      (fun m hm => absurd hm (Nat.not_lt_zero m))⟩

/-- C2 (amended): provided no grid temperature makes `T + c = 0` (so every
computed grid pressure is a finite number and the absolute differences are
comparable), `calcular_ebullicion` builds the evenly spaced ordered
1000-point grid on `[200, 700]`, evaluates the pressure model at every
grid point, and returns the grid temperature whose computed pressure has
minimum absolute difference from the target. -/
theorem C2_grid_search (Pobj a b c d e f : ℝ)
    (hc : ∀ i, i ≤ 999 → T_range i + c ≠ 0) :
    (T_range 0 = 200 ∧ T_range 999 = 700
      ∧ ∀ i, i < 999 → T_range i < T_range (i + 1)
          ∧ T_range (i + 1) - T_range i = 500 / 999)
    ∧ (∀ i, i ≤ 999 →
        P_calc a b c d e f i = FP.fin (presion (T_range i) a b c d e f))
    ∧ ∃ j, j ≤ 999 ∧ calcular_ebullicion Pobj a b c d e f = T_range j
        ∧ ∀ i, i ≤ 999 →
            |presion (T_range j) a b c d e f - Pobj|
              ≤ |presion (T_range i) a b c d e f - Pobj| := by
  have hfin : ∀ i, i ≤ 999 → diffs Pobj a b c d e f i
      = FP.fin |presion (T_range i) a b c d e f - Pobj| :=
    fun i hi => diffs_fin Pobj a b d e f i (hc i hi)
  have hnn : ∀ m, m ≤ 999 → (diffs Pobj a b c d e f m).isNan = false :=
    fun m hm => by rw [hfin m hm]; rfl
  obtain ⟨hle, hmin, hfirst⟩ := npArgmin_min (diffs Pobj a b c d e f) 999 hnn
  refine ⟨⟨T_range_zero, T_range_last,
      fun i hi => ⟨T_range_strictMono (by omega), T_range_step i⟩⟩,
    fun i hi => P_calc_fin a b d e f i (hc i hi),
    npArgmin (diffs Pobj a b c d e f) 999, hle, rfl, ?_⟩
  intro i hi
  have h := hmin i hi
  rw [hfin _ hle, hfin i hi, FP.le_fin_fin] at h
  exact of_decide_eq_true h

/-- Witness for the amended C2 with `c = 1` (every grid denominator is
positive) and all other coefficients `0`, target pressure `1`. -/
theorem C2_witness :
    (∀ i, i ≤ 999 → T_range i + (1:ℝ) ≠ 0)
    ∧ ((T_range 0 = 200 ∧ T_range 999 = 700
        ∧ ∀ i, i < 999 → T_range i < T_range (i + 1)
            ∧ T_range (i + 1) - T_range i = 500 / 999)
      ∧ (∀ i, i ≤ 999 →
          P_calc 0 0 1 0 0 0 i = FP.fin (presion (T_range i) 0 0 1 0 0 0))
      ∧ ∃ j, j ≤ 999 ∧ calcular_ebullicion 1 0 0 1 0 0 0 = T_range j
          ∧ ∀ i, i ≤ 999 →
              |presion (T_range j) 0 0 1 0 0 0 - 1|
                ≤ |presion (T_range i) 0 0 1 0 0 0 - 1|) := by
  have hc : ∀ i, i ≤ 999 → T_range i + (1:ℝ) ≠ 0 := by
    intro i _
    have := T_range_lower i
    intro hcontra
    linarith
  exact ⟨hc, C2_grid_search 1 0 0 1 0 0 0 hc⟩

/-- Counterexample to C2 as stated: with `b = 0`, `c = -200` the first
grid pressure is NaN while all the others are finite; the function then
returns 200 K — the NaN grid point — although its absolute difference
from the target is not below the others under the IEEE comparison, so on
this input the result is not a grid point of minimum absolute pressure
difference. -/
theorem C2_counterexample :
    ¬ ∃ j, j ≤ 999 ∧ calcular_ebullicion 1 0 0 (-200) 0 0 0 = T_range j
        ∧ ∀ i, i ≤ 999 →
            FP.le (diffs 1 0 0 (-200) 0 0 0 j)
              (diffs 1 0 0 (-200) 0 0 0 i) = true := by
  rintro ⟨j, hj, heq, hmin⟩
  have hres : calcular_ebullicion 1 0 0 (-200) 0 0 0 = T_range 0 := by
    show T_range (npArgmin (diffs 1 0 0 (-200) 0 0 0) 999) = T_range 0
    congr 1
    exact npArgmin_first_nan _ 999 0 (by omega)
      (by rw [diffs_isNan]; exact nan_grid_example)
      (fun m hm => absurd hm (Nat.not_lt_zero m))
  have hj0 : j = 0 := T_range_inj (heq.symm.trans hres)
  subst hj0
  have htrue := hmin 0 (by omega)
  have hnan : (diffs 1 0 0 (-200) 0 0 0 0).isNan = true := by
    rw [diffs_isNan]; exact nan_grid_example
  have hfalse : FP.le (diffs 1 0 0 (-200) 0 0 0 0)
      (diffs 1 0 0 (-200) 0 0 0 0) = false := by
    cases hD : diffs 1 0 0 (-200) 0 0 0 0 with
    | nan => exact FP.le_nan_left _
    | fin x => rw [hD] at hnan; simp [FP.isNan] at hnan
    | pinf => rw [hD] at hnan; simp [FP.isNan] at hnan
    | ninf => rw [hD] at hnan; simp [FP.isNan] at hnan
  rw [htrue] at hfalse
  exact Bool.noConfusion hfalse

/-! The spec's water example.  The coefficients `a = 16.3872`,
`b = -3885.70`, `c = 230.170` are the Celsius-fitted Antoine form for
water; on the Kelvin grid `[200, 700]` the computed pressure exceeds
101.325 kPa everywhere and increases strictly with temperature, so the
grid point closest in pressure is the very first one, `200`. -/

theorem presion_water (T : ℝ) :
    presion T 16.3872 (-3885.70) 230.170 0 0 0
      = Real.exp (16.3872 + (-3885.70) / (T + 230.170)) := by
  rw [presion]
  norm_num

theorem water_lnP_mono {T1 T2 : ℝ} (h1 : 200 ≤ T1) (h12 : T1 ≤ T2) :
    16.3872 + (-3885.70) / (T1 + 230.170)
      ≤ 16.3872 + (-3885.70) / (T2 + 230.170) := by
  have hp1 : (0:ℝ) < T1 + 230.170 := by linarith
  have hp2 : T1 + 230.170 ≤ T2 + 230.170 := by linarith
  have hdiv : (3885.70:ℝ) / (T2 + 230.170) ≤ 3885.70 / (T1 + 230.170) := by
    gcongr
  rw [neg_div, neg_div]
  linarith

theorem water_P_gt {T : ℝ} (hT : 200 ≤ T) :
    101.325 < Real.exp (16.3872 + (-3885.70) / (T + 230.170)) := by
  have h5 : (5:ℝ) ≤ 16.3872 + (-3885.70) / (T + 230.170) := by
    have hm := water_lnP_mono (le_refl (200:ℝ)) hT
    have hbase : (5:ℝ) ≤ 16.3872 + (-3885.70) / (200 + 230.170) := by
      norm_num
    linarith
  have h1 : (2.7:ℝ) < Real.exp 1 := lt_trans (by norm_num) Real.exp_one_gt_d9
  have h2 : ((2.7:ℝ)) ^ (5:ℕ) < (Real.exp 1) ^ (5:ℕ) :=
    pow_lt_pow_left h1 (by norm_num) (by norm_num)
  have h3 : (Real.exp 1) ^ (5:ℕ) = Real.exp 5 := by
    rw [← Real.exp_nat_mul]
    norm_num
  have h4 : (101.325:ℝ) < (2.7:ℝ) ^ (5:ℕ) := by norm_num
  have h6 : Real.exp 5 ≤ Real.exp (16.3872 + (-3885.70) / (T + 230.170)) :=
    Real.exp_le_exp.mpr h5
  linarith

theorem water_eb :
    calcular_ebullicion 101.325 16.3872 (-3885.70) 230.170 0 0 0 = 200 := by
  have hc : ∀ i : ℕ, T_range i + 230.170 ≠ 0 := fun i =>
    ne_of_gt (by have := T_range_lower i; linarith)
  have hfin : ∀ i : ℕ, diffs 101.325 16.3872 (-3885.70) 230.170 0 0 0 i
      = FP.fin (Real.exp (16.3872 + (-3885.70) / (T_range i + 230.170)) - 101.325) := by
    intro i
    rw [diffs_fin 101.325 16.3872 (-3885.70) 0 0 0 i (hc i), presion_water]
    congr 1
    exact abs_of_pos (sub_pos.mpr (water_P_gt (T_range_lower i)))
  have hnn : ∀ m, m ≤ 999 →
      (diffs 101.325 16.3872 (-3885.70) 230.170 0 0 0 m).isNan = false :=
    fun m _ => by rw [hfin m]; rfl
  obtain ⟨hle, hmin, hfirst⟩ :=
    npArgmin_min (diffs 101.325 16.3872 (-3885.70) 230.170 0 0 0) 999 hnn
  have hr0 : npArgmin (diffs 101.325 16.3872 (-3885.70) 230.170 0 0 0) 999 = 0 := by
    by_contra hne
    have hpos : 0 < npArgmin (diffs 101.325 16.3872 (-3885.70) 230.170 0 0 0) 999 :=
      Nat.pos_of_ne_zero hne
    have hf := hfirst 0 hpos
    have ht : FP.le (diffs 101.325 16.3872 (-3885.70) 230.170 0 0 0 0)
        (diffs 101.325 16.3872 (-3885.70) 230.170 0 0 0
          (npArgmin (diffs 101.325 16.3872 (-3885.70) 230.170 0 0 0) 999)) = true := by
      rw [hfin 0, hfin _, FP.le_fin_fin]
      apply decide_eq_true
      have hmono := water_lnP_mono (le_of_eq T_range_zero.symm)
        (T_range_mono (Nat.zero_le
          (npArgmin (diffs 101.325 16.3872 (-3885.70) 230.170 0 0 0) 999)))
      have hexp := Real.exp_le_exp.mpr hmono
      linarith
    rw [ht] at hf
    exact Bool.noConfusion hf
  show T_range (npArgmin (diffs 101.325 16.3872 (-3885.70) 230.170 0 0 0) 999) = 200
  rw [hr0, T_range_zero]

/-- C3 (amended): for the coefficients `a = 16.3872`, `b = -3885.70`,
`c = 230.170`, `d = e = f = 0` and target pressure 101.325 kPa,
`calcular_ebullicion` returns 200 K — the lowest grid point — because
these are Celsius-fitted coefficients: on the Kelvin grid the computed
pressure is everywhere above the target and strictly increasing, so the
first grid point minimises the absolute difference.  (The expected
≈ 373 K would require the Kelvin-form coefficient `c = -42.98`.) -/
theorem C3_water_example_amended :
    calcular_ebullicion 101.325 16.3872 (-3885.70) 230.170 0 0 0 = 200 :=
  water_eb

/-- Counterexample to C3 as stated: at the example input the function
returns 200 K, which is not within 0.5 K (the grid resolution) of 373 K. -/
theorem C3_counterexample :
    calcular_ebullicion 101.325 16.3872 (-3885.70) 230.170 0 0 0 = 200
    ∧ ¬ (|calcular_ebullicion 101.325 16.3872 (-3885.70) 230.170 0 0 0 - 373|
          ≤ 0.5) := by
  refine ⟨water_eb, ?_⟩
  rw [water_eb]
  rw [abs_of_nonpos (by norm_num)]
  norm_num

/-! The round-trip claim C4 and its constant-pressure counterexample. -/

theorem const_presion (T : ℝ) : presion T 0 0 1 0 0 0 = 1 := by
  rw [presion]
  norm_num

theorem const_diffs (i : ℕ) (hi : i ≤ 999) :
    diffs 1 0 0 1 0 0 0 i = FP.fin 0 := by
  have hc : T_range i + (1:ℝ) ≠ 0 :=
    ne_of_gt (by have := T_range_lower i; linarith)
  rw [diffs_fin 1 0 0 0 0 0 i hc, const_presion]
  norm_num

theorem const_eb : calcular_ebullicion 1 0 0 1 0 0 0 = 200 := by
  have hnn : ∀ m, m ≤ 999 → (diffs 1 0 0 1 0 0 0 m).isNan = false :=
    fun m hm => by rw [const_diffs m hm]; rfl
  obtain ⟨hle, hmin, hfirst⟩ := npArgmin_min (diffs 1 0 0 1 0 0 0) 999 hnn
  have hr0 : npArgmin (diffs 1 0 0 1 0 0 0) 999 = 0 := by
    by_contra hne
    have hpos : 0 < npArgmin (diffs 1 0 0 1 0 0 0) 999 :=
      Nat.pos_of_ne_zero hne
    have hf := hfirst 0 hpos
    rw [const_diffs 0 (by omega), const_diffs _ hle, FP.le_fin_fin] at hf
    simp at hf
  show T_range (npArgmin (diffs 1 0 0 1 0 0 0) 999) = 200
  rw [hr0, T_range_zero]

/-- C4 (amended): for `T0` in `[200, 700]` and coefficients whose pressure
curve is finite on the grid range (`T + c` never 0 there) and strictly
increasing on `[200, 700]`, feeding `vaporPressure(T0, ...)` back into
`calcular_ebullicion` returns a temperature within one grid step
(`500/999` K) of `T0`.  The strict-monotonicity hypothesis is forced by
the counterexample: a non-injective (e.g. constant) pressure curve can
return a grid point arbitrarily far from `T0`. -/
theorem C4_roundtrip_monotone (T0 a b c d e f : ℝ)
    (hT0 : T0 ∈ Set.Icc (200:ℝ) 700)
    (hc : ∀ T ∈ Set.Icc (200:ℝ) 700, T + c ≠ 0)
    (hmono : StrictMonoOn (fun T => presion T a b c d e f) (Set.Icc (200:ℝ) 700)) :
    |calcular_ebullicion (presion T0 a b c d e f) a b c d e f - T0| ≤ 500 / 999 := by
  obtain ⟨hT0l, hT0u⟩ := hT0
  have hgrid : ∀ i : ℕ, i ≤ 999 → T_range i ∈ Set.Icc (200:ℝ) 700 :=
    fun i hi => T_range_mem_Icc hi
  have hfin : ∀ i, i ≤ 999 → diffs (presion T0 a b c d e f) a b c d e f i
      = FP.fin |presion (T_range i) a b c d e f - presion T0 a b c d e f| :=
    fun i hi => diffs_fin _ a b d e f i (hc _ (hgrid i hi))
  have hnn : ∀ m, m ≤ 999 →
      (diffs (presion T0 a b c d e f) a b c d e f m).isNan = false :=
    fun m hm => by rw [hfin m hm]; rfl
  obtain ⟨hle, hmin, hfirst⟩ :=
    npArgmin_min (diffs (presion T0 a b c d e f) a b c d e f) 999 hnn
  show |T_range (npArgmin (diffs (presion T0 a b c d e f) a b c d e f) 999) - T0|
      ≤ 500 / 999
  set r := npArgmin (diffs (presion T0 a b c d e f) a b c d e f) 999 with hrdef
  have hminR : ∀ m, m ≤ 999 →
      |presion (T_range r) a b c d e f - presion T0 a b c d e f|
        ≤ |presion (T_range m) a b c d e f - presion T0 a b c d e f| := by
    intro m hm
    have h := hmin m hm
    rw [hfin r hle, hfin m hm, FP.le_fin_fin] at h
    exact of_decide_eq_true h
  obtain ⟨k, hk, hbl, hbr⟩ := exists_bracket hT0l hT0u
  have hmOn := hmono.monotoneOn
  have hkr : k ≤ r := by
    by_contra hcon
    push_neg at hcon
    have hPrk : presion (T_range r) a b c d e f < presion (T_range k) a b c d e f :=
      hmono (hgrid r hle) (hgrid k (by omega)) (T_range_strictMono hcon)
    have hPk : presion (T_range k) a b c d e f ≤ presion T0 a b c d e f :=
      hmOn (hgrid k (by omega)) ⟨hT0l, hT0u⟩ hbl
    have h1 := hminR k (by omega)
    rw [abs_of_nonpos (by linarith), abs_of_nonpos (by linarith)] at h1
    linarith
  have hrk1 : r ≤ k + 1 := by
    by_contra hcon
    push_neg at hcon
    have hPk1r : presion (T_range (k + 1)) a b c d e f
        < presion (T_range r) a b c d e f :=
      hmono (hgrid (k + 1) (by omega)) (hgrid r hle) (T_range_strictMono hcon)
    have hPk1 : presion T0 a b c d e f ≤ presion (T_range (k + 1)) a b c d e f :=
      hmOn ⟨hT0l, hT0u⟩ (hgrid (k + 1) (by omega)) hbr
    have h1 := hminR (k + 1) (by omega)
    rw [abs_of_nonneg (by linarith), abs_of_nonneg (by linarith)] at h1
    linarith
  have hstep := T_range_step k
  have hcase : r = k ∨ r = k + 1 := by omega
  rcases hcase with h | h
  · rw [h, abs_of_nonpos (by linarith)]
    linarith
  · rw [h, abs_of_nonneg (by linarith)]
    linarith

/-- Witness for the amended C4: coefficients `d = 1`, others `0` (the
pressure curve is `exp(log T) = T`, strictly increasing), `T0 = 300`. -/
theorem C4_witness :
    (300:ℝ) ∈ Set.Icc (200:ℝ) 700
    ∧ (∀ T ∈ Set.Icc (200:ℝ) 700, T + (0:ℝ) ≠ 0)
    ∧ StrictMonoOn (fun T => presion T 0 0 0 1 0 0) (Set.Icc (200:ℝ) 700)
    ∧ |calcular_ebullicion (presion 300 0 0 0 1 0 0) 0 0 0 1 0 0 - 300|
        ≤ 500 / 999 := by
  have h1 : (300:ℝ) ∈ Set.Icc (200:ℝ) 700 := ⟨by norm_num, by norm_num⟩
  have h2 : ∀ T ∈ Set.Icc (200:ℝ) 700, T + (0:ℝ) ≠ 0 := by
    intro T hT hcontra
    have := hT.1
    rw [add_zero] at hcontra
    linarith
  have h3 : StrictMonoOn (fun T => presion T 0 0 0 1 0 0) (Set.Icc (200:ℝ) 700) := by
    intro x hx y hy hxy
    simp only [presion]
    apply Real.exp_lt_exp.mpr
    have hlog : Real.log x < Real.log y := Real.log_lt_log (by linarith [hx.1]) hxy
    norm_num
    linarith
  exact ⟨h1, h2, h3, C4_roundtrip_monotone 300 0 0 0 1 0 0 h1 h2 h3⟩

/-- Counterexample to C4 as stated: the constant-pressure coefficients
`c = 1`, all others `0`, give a finite vapor pressure at `T0 = 700`, yet
`calcular_ebullicion(vaporPressure(700), ...)` returns 200 K — 500 K away
from `T0`, far more than one grid step. -/
theorem C4_counterexample :
    (calcular_presion_vapor 700 0 0 1 0 0 0).isFinite = true
    ∧ (200:ℝ) ≤ 700 ∧ (700:ℝ) ≤ 700
    ∧ ¬ (|calcular_ebullicion (presion 700 0 0 1 0 0 0) 0 0 1 0 0 0 - 700|
          ≤ 500 / 999) := by
  refine ⟨?_, by norm_num, by norm_num, ?_⟩
  · rw [calcular_presion_vapor_fin 0 0 0 0 0 (by norm_num) (by norm_num)]
    rfl
  · rw [const_presion, const_eb]
    rw [abs_of_nonpos (by norm_num)]
    norm_num

/-- C6: when the minimum absolute pressure difference is attained (in the
IEEE order, which excludes NaN situations) at two or more grid points,
`calcular_ebullicion` returns the lowest-index grid point attaining it:
the first minimum encountered when scanning the grid in increasing
temperature order. -/
theorem C6_tie_break_first (Pobj a b c d e f : ℝ) (i1 i2 : ℕ)
    (h1 : i1 ≤ 999) (h2 : i2 ≤ 999) (hne : i1 ≠ i2)
    (heq : diffs Pobj a b c d e f i1 = diffs Pobj a b c d e f i2)
    (hminall : ∀ i, i ≤ 999 →
      FP.le (diffs Pobj a b c d e f i1) (diffs Pobj a b c d e f i) = true) :
    ∃ j, j ≤ 999 ∧ calcular_ebullicion Pobj a b c d e f = T_range j
      ∧ FP.le (diffs Pobj a b c d e f j) (diffs Pobj a b c d e f i1) = true
      ∧ FP.le (diffs Pobj a b c d e f i1) (diffs Pobj a b c d e f j) = true
      ∧ ∀ m, m < j →
          FP.le (diffs Pobj a b c d e f m) (diffs Pobj a b c d e f j) = false := by
  have hnn : ∀ m, m ≤ 999 → (diffs Pobj a b c d e f m).isNan = false :=
    fun m hm => (FP.not_nan_of_le (hminall m hm)).2
  obtain ⟨hle, hmin, hfirst⟩ := npArgmin_min (diffs Pobj a b c d e f) 999 hnn
  exact ⟨npArgmin (diffs Pobj a b c d e f) 999, hle, rfl, hmin i1 h1,
    hminall _ hle, hfirst⟩

/-- Witness for C6: with `c = 1` and all other coefficients `0` every grid
pressure is 1 and every absolute difference from the target `1` is `0`, so
all 1000 grid points tie; the function returns the first one. -/
theorem C6_witness :
    (0:ℕ) ≤ 999 ∧ (1:ℕ) ≤ 999 ∧ (0:ℕ) ≠ 1
    ∧ diffs 1 0 0 1 0 0 0 0 = diffs 1 0 0 1 0 0 0 1
    ∧ (∀ i, i ≤ 999 →
        FP.le (diffs 1 0 0 1 0 0 0 0) (diffs 1 0 0 1 0 0 0 i) = true)
    ∧ ∃ j, j ≤ 999 ∧ calcular_ebullicion 1 0 0 1 0 0 0 = T_range j
        ∧ FP.le (diffs 1 0 0 1 0 0 0 j) (diffs 1 0 0 1 0 0 0 0) = true
        ∧ FP.le (diffs 1 0 0 1 0 0 0 0) (diffs 1 0 0 1 0 0 0 j) = true
        ∧ ∀ m, m < j →
            FP.le (diffs 1 0 0 1 0 0 0 m) (diffs 1 0 0 1 0 0 0 j) = false := by
  have heq : diffs 1 0 0 1 0 0 0 0 = diffs 1 0 0 1 0 0 0 1 := by
    rw [const_diffs 0 (by omega), const_diffs 1 (by omega)]
  have hminall : ∀ i, i ≤ 999 →
      FP.le (diffs 1 0 0 1 0 0 0 0) (diffs 1 0 0 1 0 0 0 i) = true := by
    intro i hi
    rw [const_diffs 0 (by omega), const_diffs i hi, FP.le_fin_fin]
    simp
  exact ⟨by omega, by omega, by omega, heq, hminall,
    C6_tie_break_first 1 0 0 1 0 0 0 0 1 (by omega) (by omega) (by omega)
      heq hminall⟩

end Antoine
